import Mathlib

/-!
Verification development for the smiletrack-rs multi-object tracker.

The Rust core (src/tracker.rs, src/utils.rs) is shallowly embedded below:
`f32` arithmetic is modelled by exact rationals `ℚ`, nalgebra vectors and
matrices by functions out of `Fin 4` / `Fin 8`, and the wall clock
(`std::time::Instant`) by an explicit rational timestamp threaded through
every operation that reads or writes it.  The LU solves of nalgebra are
modelled by the adjugate formula: over an exact field the LU solve of an
invertible system returns the unique solution, and fails exactly when the
determinant is zero.
-/

namespace SmileTrack

/-! ### Small exact linear algebra (ℚ, dimensions 4 and 8) -/

/-- 4-vector, the `SVector<f32, 4>` of the source. -/
abbrev V4 : Type := Fin 4 → ℚ

/-- 8-vector, the `SVector<f32, 8>` of the source. -/
abbrev V8 : Type := Fin 8 → ℚ

/-- 4×4 matrix. -/
abbrev M4 : Type := Fin 4 → Fin 4 → ℚ

/-- 8×8 matrix. -/
abbrev M8 : Type := Fin 8 → Fin 8 → ℚ

/-- 8×4 matrix (Kalman gain shape). -/
abbrev M84 : Type := Fin 8 → Fin 4 → ℚ

/-- 4×8 matrix. -/
abbrev M48 : Type := Fin 4 → Fin 8 → ℚ

/-- Sum of a function over the four indices, written out so that both the
kernel and `ring` can unfold it. -/
def sum4 (f : Fin 4 → ℚ) : ℚ := f 0 + f 1 + f 2 + f 3

/-- Sum of a function over the eight indices. -/
def sum8 (f : Fin 8 → ℚ) : ℚ :=
  f 0 + f 1 + f 2 + f 3 + f 4 + f 5 + f 6 + f 7

/-- Matrix–vector product in dimension 8. -/
def mulVec8 (A : M8) (v : V8) : V8 := fun i => sum8 (fun k => A i k * v k)

/-- 8×4 matrix applied to a 4-vector. -/
def mulVec84 (A : M84) (v : V4) : V8 := fun i => sum4 (fun k => A i k * v k)

/-- 4×4 times 4×4. -/
def mul4 (A B : M4) : M4 := fun i j => sum4 (fun k => A i k * B k j)

/-- 4×4 times 4×8. -/
def mul4x48 (A : M4) (B : M48) : M48 := fun i j => sum4 (fun k => A i k * B k j)

/-- 8×4 times 4×4. -/
def mul84x4 (A : M84) (B : M4) : M84 := fun i j => sum4 (fun k => A i k * B k j)

/-- 8×4 times 4×8. -/
def mul84x48 (A : M84) (B : M48) : M8 := fun i j => sum4 (fun k => A i k * B k j)

/-- 8×8 times 8×8. -/
def mul8 (A B : M8) : M8 := fun i j => sum8 (fun k => A i k * B k j)

/-- Transpose of an 8×4 matrix. -/
def tr84 (A : M84) : M48 := fun i j => A j i

/-- Transpose of an 8×8 matrix. -/
def tr8 (A : M8) : M8 := fun i j => A j i

/-- 8×8 identity. -/
def id8 : M8 := fun i j => if i = j then 1 else 0

/-- Embed a position index into the 8-dimensional state. -/
def pidx (i : Fin 4) : Fin 8 := ⟨i.val, by omega⟩

/-- Determinant of a 3×3 matrix given entrywise. -/
def det3 (a b c d e f g h i : ℚ) : ℚ :=
  a * (e * i - f * h) - b * (d * i - f * g) + c * (d * h - e * g)

/-- The three indices of `Fin 4` other than `i`, in increasing order. -/
def skip (i : Fin 4) (k : Fin 3) : Fin 4 :=
  if (k : ℕ) < (i : ℕ) then ⟨k, by omega⟩ else ⟨(k : ℕ) + 1, by omega⟩

/-- Determinant of the 3×3 minor of `m` obtained by deleting row `i` and
column `j`. -/
def minor3 (m : M4) (i j : Fin 4) : ℚ :=
  det3 (m (skip i 0) (skip j 0)) (m (skip i 0) (skip j 1)) (m (skip i 0) (skip j 2))
       (m (skip i 1) (skip j 0)) (m (skip i 1) (skip j 1)) (m (skip i 1) (skip j 2))
       (m (skip i 2) (skip j 0)) (m (skip i 2) (skip j 1)) (m (skip i 2) (skip j 2))

/-- Cofactor of `m` at `(i, j)`. -/
def cof (m : M4) (i j : Fin 4) : ℚ := (-1 : ℚ) ^ ((i : ℕ) + (j : ℕ)) * minor3 m i j

/-- Determinant of a 4×4 matrix, Laplace expansion along the first row. -/
def det4 (m : M4) : ℚ := sum4 (fun j => m 0 j * cof m 0 j)

/-- Adjugate (transpose of the cofactor matrix). -/
def adj4 (m : M4) : M4 := fun i j => cof m j i

/-- Inverse of a 4×4 matrix via the adjugate formula (meaningful when
`det4 m ≠ 0`). -/
def inv4 (m : M4) : M4 := fun i j => adj4 m i j / det4 m

/-- Exact model of nalgebra's `lu().solve` on a 4×4 system with a 4×8
right-hand side: over an exact field the LU solve succeeds iff the matrix is
invertible, and then returns the unique solution `m⁻¹ * b`. -/
def solve4x48 (m : M4) (b : M48) : Option M48 :=
  if det4 m = 0 then none else some (mul4x48 (inv4 m) b)

/-! ### `utils.rs`: IoU -/

/-- `f32::max` on exact rationals, in a form the kernel evaluates. -/
def rmax (a b : ℚ) : ℚ := if a ≤ b then b else a

/-- `f32::min` on exact rationals. -/
def rmin (a b : ℚ) : ℚ := if a ≤ b then a else b

/-- `compute_iou_tlbr` (src/utils.rs lines 80–96), on exact rationals. -/
def computeIouTlbr (ax1 ay1 ax2 ay2 bx1 by1 bx2 by2 : ℚ) : ℚ :=
  let x1 := rmax ax1 bx1
  let y1 := rmax ay1 by1
  let x2 := rmin ax2 bx2
  let y2 := rmin ay2 by2
  let interArea := rmax (x2 - x1) 0 * rmax (y2 - y1) 0
  let aArea := (ax2 - ax1) * (ay2 - ay1)
  let bArea := (bx2 - bx1) * (by2 - by1)
  if aArea + bArea - interArea ≤ 0 then 0
  else interArea / (aArea + bArea - interArea)

/-- `compute_iou` (src/utils.rs lines 63–77): reads its two arguments as
`[x, y, w, h]` boxes and derives the corners as `x + w`, `y + h`. -/
def computeIou (a b : V4) : ℚ :=
  computeIouTlbr (a 0) (a 1) (a 0 + a 2) (a 1 + a 3)
                 (b 0) (b 1) (b 0 + b 2) (b 1 + b 3)

/-! ### `tracker.rs`: KalmanFilter -/

namespace KalmanFilter

/-- `std_weight_position = 1.0 / 20.0`. -/
def stdWeightPosition : ℚ := 1 / 20

/-- `std_weight_velocity = 1.0 / 160.0`. -/
def stdWeightVelocity : ℚ := 1 / 160

/-- The 8×8 motion matrix: identity plus a `dt = 1` position←velocity
coupling (`motion_mat[(i, 4 + i)] = 1` for `i < 4`). -/
def motionMat : M8 := fun i j =>
  (if i = j then 1 else 0) + (if (j : ℕ) = (i : ℕ) + 4 then 1 else 0)

/-- The 4×8 observation matrix `H` (identity on the first four components). -/
def updateMat : Fin 4 → Fin 8 → ℚ := fun i j => if (i : ℕ) = (j : ℕ) then 1 else 0

/-- `KalmanFilter::initiate` (lines 48–66): position copied from the
measurement, velocities zero; diagonal covariance built from the listed
standard deviations. -/
def initiate (measurement : V4) : V8 × M8 :=
  let mean : V8 := fun i =>
    if h : (i : ℕ) < 4 then measurement ⟨i, h⟩ else 0
  let std : V8 :=
    ![2 * stdWeightPosition * measurement 2,
      2 * stdWeightPosition * measurement 3,
      2 * stdWeightPosition * measurement 2,
      2 * stdWeightPosition * measurement 3,
      10 * stdWeightVelocity * measurement 2,
      10 * stdWeightVelocity * measurement 3,
      10 * stdWeightVelocity * measurement 2,
      10 * stdWeightVelocity * measurement 3]
  let covariance : M8 := fun i j => if i = j then std i * std i else 0
  (mean, covariance)

/-- The diagonal process-noise matrix `Q` of `predict`, recomputed from the
current mean (size-adaptive noise). -/
def processNoise (mean : V8) : M8 :=
  let q : V8 :=
    ![stdWeightPosition * mean 2, stdWeightPosition * mean 3,
      stdWeightPosition * mean 2, stdWeightPosition * mean 3,
      stdWeightVelocity * mean 2, stdWeightVelocity * mean 3,
      stdWeightVelocity * mean 2, stdWeightVelocity * mean 3]
  fun i j => if i = j then q i * q i else 0

/-- `KalmanFilter::predict` (lines 67–111): `x' = F x`, `P' = F P Fᵀ + Q`. -/
def predict (mean : V8) (covariance : M8) : V8 × M8 :=
  (mulVec8 motionMat mean,
   fun i j => mul8 (mul8 motionMat covariance) (tr8 motionMat) i j
     + processNoise mean i j)

/-- The diagonal measurement-noise matrix `R` of `project`. -/
def measurementNoise (mean : V8) : M4 :=
  let std : V4 :=
    ![stdWeightPosition * mean 2, stdWeightPosition * mean 3,
      stdWeightPosition * mean 2, stdWeightPosition * mean 3]
  fun i j => if i = j then std i * std i else 0

/-- `KalmanFilter::project` (lines 112–137): `z = H x`, `S = H P Hᵀ + R`. -/
def project (mean : V8) (covariance : M8) : V4 × M4 :=
  (fun i => sum8 (fun k => updateMat i k * mean k),
   fun i j =>
     sum8 (fun k => sum8 (fun l => updateMat i k * covariance k l * updateMat j l))
       + measurementNoise mean i j)

/-- `KalmanFilter::update` (lines 189–251).  The gain solves the regularized
system `(S + 1e-8·I) Kᵀ = (P Hᵀ)ᵀ`; on a singular system the code falls back
to `P Hᵀ · (S + 1e-4·I)⁻¹`, and failing that to `P Hᵀ · (0.01·I)`.  The new
covariance uses the Joseph form with the *unregularized* projected
covariance, exactly as in the source. -/
def update (mean : V8) (covariance : M8) (measurement : V4) : V8 × M8 :=
  let projectedMean := (project mean covariance).1
  let projectedCov := (project mean covariance).2
  let pht : M84 := fun i j => sum8 (fun k => covariance i k * updateMat j k)
  let sReg : M4 := fun i j => projectedCov i j + if i = j then 1 / 100000000 else 0
  let k : M84 :=
    match solve4x48 sReg (tr84 pht) with
    | some kt => fun i j => kt j i
    | none =>
        let sFb : M4 := fun i j => projectedCov i j + if i = j then 1 / 10000 else 0
        if det4 sFb = 0 then
          mul84x4 pht (fun i j => if i = j then 1 / 100 else 0)
        else mul84x4 pht (inv4 sFb)
  let innovation : V4 := fun i => measurement i - projectedMean i
  let newMean : V8 := fun i => mean i + mulVec84 k innovation i
  let ikh : M8 := fun i j => id8 i j - sum4 (fun l => k i l * updateMat l j)
  let newCov : M8 := fun i j =>
    mul8 (mul8 ikh covariance) (tr8 ikh) i j
      + sum4 (fun l => sum4 (fun m => k i l * projectedCov l m * k j m))
  (newMean, newCov)

end KalmanFilter

/-! ### `detection.rs`: Detection -/

/-- `Detection` (src/detection.rs lines 13–19). -/
structure Detection where
  tlwh : V4
  confidence : ℚ
  class_id : ℤ
  feature : Option (List ℚ)

instance : Inhabited Detection := ⟨⟨fun _ => 0, 0, 0, none⟩⟩

/-! ### `tracker.rs`: STrack -/

/-- `TrackState` (src/tracker.rs lines 14–20). -/
inductive TrackState where
  | New
  | Tracked
  | Lost
  | Removed
deriving DecidableEq, Inhabited

/-- `STrack` (src/tracker.rs lines 266–300).  `last_update` is the
`Instant` of the source modelled as an explicit rational timestamp; every
operation that calls `Instant::now()` in the source takes the current time
as an argument here.  The `motion_trail` field is omitted: the source only
ever initializes it to the empty vector and never writes to it. -/
structure STrack where
  mean : V8
  covariance : M8
  tlwh : V4
  score : ℚ
  track_id : ℕ
  state : TrackState
  is_activated : Bool
  frame_id : ℤ
  start_frame : ℤ
  tracklet_len : ℤ
  features : List (List ℚ)
  alpha : ℚ
  class_id : ℤ
  class_hist : List ℤ
  last_update : ℚ

instance : Inhabited STrack :=
  ⟨⟨fun _ => 0, fun _ _ => 0, fun _ => 0, 0, 0, .New, false, 0, 0, 0, [], 0, 0, [], 0⟩⟩

namespace STrack

/-- `STrack::new` (lines 326–355): Kalman state initiated from the box,
state `New`, id `0` until the tracker assigns one. -/
def new (tlwh : V4) (score : ℚ) (class_id : ℤ) (feat : Option (List ℚ))
    (frame_id : ℤ) (now : ℚ) : STrack :=
  { mean := (KalmanFilter.initiate tlwh).1
    covariance := (KalmanFilter.initiate tlwh).2
    tlwh := tlwh
    score := score
    track_id := 0
    state := .New
    is_activated := false
    frame_id := frame_id
    start_frame := frame_id
    tracklet_len := 0
    features := match feat with | some f => [f] | none => []
    alpha := 9 / 10
    class_id := class_id
    class_hist := [class_id]
    last_update := now }

/-- `STrack::state_to_tlwh` (lines 358–360): first four mean components. -/
def stateToTlwh (mean : V8) : V4 := fun i => mean (pidx i)

/-- `STrack::tlwh_to_tlbr` (lines 363–368). -/
def tlwhToTlbr (tlwh : V4) : V4 :=
  ![tlwh 0, tlwh 1, tlwh 0 + tlwh 2, tlwh 1 + tlwh 3]

/-- `STrack::predict` (lines 381–387): Kalman predict, then refresh the
cached `tlwh` from the new mean. -/
def predict (t : STrack) : STrack :=
  let mc := KalmanFilter.predict t.mean t.covariance
  { t with mean := mc.1, covariance := mc.2, tlwh := stateToTlwh mc.1 }

/-- The class-history mode recomputed by `STrack::update` (lines 417–425).
The source counts occurrences in a `HashMap` and takes `max_by_key` — the
iteration order of the map, hence the tie-break among equally frequent
classes, is unspecified; here the first-seen class among the maxima wins.
No claim depends on `class_id`. -/
def classMode (hist : List ℤ) (dflt : ℤ) : ℤ :=
  match hist.foldl
      (fun best c =>
        match best with
        | none => some (c, hist.count c)
        | some (b, n) => if n < hist.count c then some (c, hist.count c) else some (b, n))
      none with
  | some (b, _) => b
  | none => dflt

/-- `STrack::update` (lines 389–442): Kalman update with the detection box,
refresh `tlwh`, bump `tracklet_len`, set `Tracked`/activated, record the
score, push the class onto the length-10 history and recompute the mode,
and—when a feature is supplied—append `0.9·old + 0.1·new` to the feature
history. -/
def update (t : STrack) (detection : Detection) (frame_id : ℤ)
    (feat : Option (List ℚ)) (now : ℚ) : STrack :=
  let mc := KalmanFilter.update t.mean t.covariance detection.tlwh
  let hist0 := t.class_hist ++ [detection.class_id]
  let hist := if 10 < hist0.length then hist0.drop 1 else hist0
  let features :=
    match feat with
    | some newFeat =>
        if t.features ≠ [] then
          let lastFeat := t.features.getLastD []
          t.features ++
            [(List.range newFeat.length).map
              (fun i => t.alpha * lastFeat.getD i 0 + (1 - t.alpha) * newFeat.getD i 0)]
        else t.features ++ [newFeat]
    | none => t.features
  { t with
    mean := mc.1
    covariance := mc.2
    tlwh := stateToTlwh mc.1
    frame_id := frame_id
    tracklet_len := t.tracklet_len + 1
    state := .Tracked
    is_activated := true
    score := detection.confidence
    class_hist := hist
    class_id := classMode hist detection.class_id
    features := features
    last_update := now }

/-- `STrack::mark_lost` (lines 445–447). -/
def markLost (t : STrack) : STrack := { t with state := .Lost }

/-- `STrack::mark_removed` (lines 450–452). -/
def markRemoved (t : STrack) : STrack := { t with state := .Removed }

/-- `STrack::activate` (lines 455–466): re-initiate the Kalman state from
the current box, assign the id, set `Tracked`; `is_activated` is set to
`true` only when `frame_id == 1` and is left untouched otherwise. -/
def activate (t : STrack) (frame_id : ℤ) (track_id : ℕ) : STrack :=
  { t with
    mean := (KalmanFilter.initiate t.tlwh).1
    covariance := (KalmanFilter.initiate t.tlwh).2
    track_id := track_id
    state := .Tracked
    is_activated := if frame_id = 1 then true else t.is_activated
    frame_id := frame_id
    start_frame := frame_id }

/-- `STrack::re_activate` (lines 469–483): Kalman update against the new
detection, `tracklet_len` reset to 0, `Tracked`, activated; the cached
`tlwh` and `last_update` are *not* refreshed by the source.  The `new_id`
branch of the source is `self.track_id = self.track_id`, a no-op, so the
id is preserved either way. -/
def reActivate (t : STrack) (detection : Detection) (frame_id : ℤ)
    (_new_id : Bool) : STrack :=
  let mc := KalmanFilter.update t.mean t.covariance detection.tlwh
  { t with
    mean := mc.1
    covariance := mc.2
    tracklet_len := 0
    state := .Tracked
    is_activated := true
    frame_id := frame_id
    score := detection.confidence }

end STrack

/-! ### `tracker.rs`: SMILEtrack -/

/-- Replace the element at index `i` (no-op when out of range), the
functional counterpart of the source's in-place `&mut self.list[i]`
mutations. -/
def modifyIdx : List α → ℕ → (α → α) → List α
  | [], _, _ => []
  | x :: xs, 0, f => f x :: xs
  | x :: xs, n + 1, f => x :: modifyIdx xs n f

/-- The IoU the tracker computes between two cached boxes: both sides are
converted by `tlwh_to_tlbr` and handed to `compute_iou` — which itself
reads its arguments as `[x, y, w, h]` boxes (src/tracker.rs lines 857–859
and 924–926 with src/utils.rs lines 63–77). -/
def boxIou (a b : V4) : ℚ :=
  computeIou (STrack.tlwhToTlbr a) (STrack.tlwhToTlbr b)

/-- Result of `SMILEtrack::match_tracks`. -/
structure MatchResult where
  pairs : List (ℕ × ℕ)
  unmatchedTracks : List ℕ
  unmatchedDets : List ℕ
deriving DecidableEq, Inhabited

/-- The inner loop of the placeholder greedy matcher (lines 873–889): scan
detections in index order and keep the strictly cheapest unused one whose
cost is below the `0.5` gate; `none` when no detection qualifies. -/
def greedyPick (cost : ℕ → ℚ) (m : ℕ) (used : List ℕ) : Option ℕ :=
  (List.range m).foldl
    (fun best j =>
      if used.contains j then best
      else if cost j < 1 / 2 then
        match best with
        | none => some (cost j, j)
        | some cb => if cost j < cb.1 then some (cost j, j) else best
      else best)
    none |>.map Prod.snd

/-- `SMILEtrack::match_tracks` (lines 843–915): early return when either
side is empty, otherwise an IoU-distance matrix plus the greedy assignment,
with any track or detection not in the assignment reported unmatched. -/
def matchTracks (tracks : List STrack) (filteredDets : List Detection) : MatchResult :=
  if tracks.isEmpty ∨ filteredDets.isEmpty then
    ⟨[], List.range tracks.length, List.range filteredDets.length⟩
  else
    let cost : ℕ → ℕ → ℚ := fun i j =>
      1 - computeIou (STrack.tlwhToTlbr (tracks.getD i default).tlwh)
                     (STrack.tlwhToTlbr (filteredDets.getD j default).tlwh)
    let assignments :=
      (List.range tracks.length).foldl
        (fun acc i =>
          match greedyPick (cost i) filteredDets.length (acc.map Prod.snd) with
          | some j => acc ++ [(i, j)]
          | none => acc)
        []
    ⟨assignments,
     (List.range tracks.length).filter
       (fun i => assignments.all (fun p => p.1 != i)),
     (List.range filteredDets.length).filter
       (fun j => assignments.all (fun p => p.2 != j))⟩

/-- The duplicate indices collected by `SMILEtrack::remove_duplicate_tracks`
(lines 918–937): for every pair `i < j` with computed IoU above `0.7`, the
index of the track with the smaller `tracklet_len` (the *first* of the pair
when equal, since the source's `else` branch pushes `i`). -/
def dupIndices (l : List STrack) : List ℕ :=
  (List.range l.length).flatMap (fun i =>
    (List.range l.length).filterMap (fun j =>
      if i < j then
        if 7 / 10 < boxIou (l.getD i default).tlwh (l.getD j default).tlwh then
          some (if (l.getD j default).tracklet_len < (l.getD i default).tracklet_len
                then j else i)
        else none
      else none))

/-- The indices kept by the deduplication pass. -/
def keptIndices (l : List STrack) : List ℕ :=
  (List.range l.length).filter (fun i => decide (i ∉ dupIndices l))

/-- `SMILEtrack::remove_duplicate_tracks` (lines 918–945).  The source
sorts the collected indices, deduplicates them and removes them from the
vector in descending order — which deletes exactly the elements at the
collected indices; embedded as keeping the complement, in order. -/
def removeDuplicateTracks (l : List STrack) : List STrack :=
  (keptIndices l).filterMap (fun i => l.get? i)

/-- The tracker state `SMILEtrack` (lines 692–715).  The `KalmanFilter` and
`GMC` members carry no data relevant to the claims (the filter is stateless,
and the GMC state is consumed only inside the OpenCV optical-flow stage);
`frame_rate` is stored by the constructor and never read. -/
structure SMILEtrack where
  tracked_stracks : List STrack
  lost_stracks : List STrack
  removed_stracks : List STrack
  track_id_count : ℕ
  track_high_thresh : ℚ
  track_buffer : ℕ
  max_time_lost : ℚ
  with_reid : Bool

namespace SMILEtrack

/-- `SMILEtrack::new` (lines 719–733) for a given configuration: empty
lists, id counter 0, `max_time_lost = 30.0`. -/
def init (track_high_thresh : ℚ) (track_buffer : ℕ) (with_reid : Bool) : SMILEtrack :=
  { tracked_stracks := []
    lost_stracks := []
    removed_stracks := []
    track_id_count := 0
    track_high_thresh := track_high_thresh
    track_buffer := track_buffer
    max_time_lost := 30
    with_reid := with_reid }

/-- `SMILEtrack::update` (lines 741–840) for a frame on which the GMC stage
yields no compensation (its first-frame / fewer-than-4-correspondences
branch, lines 743–752, in which case the homography block is skipped
entirely).  `now` is the wall-clock instant of this call.

Step by step, as in the source: filter the high-confidence detections;
predict every tracked and lost track; tier-1 match the tracked list against
the high-confidence detections and `update()` the matches in place; tier-2
match the *lost* list against the same full high-confidence list (the
source passes `high_score_dets` again, not the tier-1 leftovers) and
`re_activate()` the matches in place, cloning each into the refind buffer;
mark unmatched tracked tracks lost in place when `tracklet_len >
track_buffer`, cloning them into the lost buffer; spawn and `activate()` a
new track for every detection unmatched by *tier 1*; mark stale lost tracks
removed in place, cloning them into the removed buffer; extend the three
lists with the buffers; deduplicate the tracked list. -/
def update (s : SMILEtrack) (dets : List Detection) (frame_id : ℤ) (now : ℚ) :
    SMILEtrack :=
  let high := dets.filter (fun d => decide (s.track_high_thresh ≤ d.confidence))
  let tracked1 := s.tracked_stracks.map STrack.predict
  let lost1 := s.lost_stracks.map STrack.predict
  let r1 := matchTracks tracked1 high
  let tracked2 := r1.pairs.foldl
    (fun ts p => modifyIdx ts p.1
      (fun t => t.update (high.getD p.2 default) frame_id none now))
    tracked1
  let r2 := matchTracks lost1 high
  let lost2 := r2.pairs.foldl
    (fun ls p => modifyIdx ls p.1
      (fun t => t.reActivate (high.getD p.2 default) frame_id false))
    lost1
  let refind := r2.pairs.map
    (fun p => (lost1.getD p.1 default).reActivate (high.getD p.2 default) frame_id false)
  let tracked3 := r1.unmatchedTracks.foldl
    (fun ts i => modifyIdx ts i
      (fun t => if (s.track_buffer : ℤ) < t.tracklet_len then t.markLost else t))
    tracked2
  let newLost := r1.unmatchedTracks.filterMap
    (fun i =>
      let t := tracked2.getD i default
      if (s.track_buffer : ℤ) < t.tracklet_len then some t.markLost else none)
  let spawned := r1.unmatchedDets.foldl
    (fun (acc : ℕ × List STrack) j =>
      let d := high.getD j default
      if s.track_high_thresh ≤ d.confidence then
        let c := acc.1 + 1
        let nt := STrack.new d.tlwh d.confidence d.class_id none frame_id now
        (c, acc.2 ++ [nt.activate frame_id c])
      else acc)
    (s.track_id_count, [])
  let lost3 := lost2.map
    (fun t => if s.max_time_lost < now - t.last_update then t.markRemoved else t)
  let newRemoved := lost2.filterMap
    (fun t => if s.max_time_lost < now - t.last_update then some t.markRemoved else none)
  { s with
    tracked_stracks := removeDuplicateTracks (tracked3 ++ spawned.2 ++ refind)
    lost_stracks := lost3 ++ newLost
    removed_stracks := s.removed_stracks ++ newRemoved
    track_id_count := spawned.1 }

end SMILEtrack

/-! ### Auxiliary notions used to state the claims -/

/-- `n` successive `KalmanFilter::predict` calls on a state pair. -/
def predictN : ℕ → V8 × M8 → V8 × M8
  | 0, s => s
  | n + 1, s => predictN n (KalmanFilter.predict s.1 s.2)

/-- The quadratic form of an 8×8 matrix. -/
def quadForm (P : M8) (v : V8) : ℚ := sum8 (fun i => sum8 (fun j => v i * P i j * v j))

/-- Symmetric positive semi-definite, the hypothesis of the spec's
`update()` betweenness property. -/
def IsSymPSD (P : M8) : Prop :=
  (∀ i j, P i j = P j i) ∧ ∀ v : V8, 0 ≤ quadForm P v

/-- Two `[x, y, w, h]` boxes are disjoint: their corner-form intervals do
not overlap in the x-direction or do not overlap in the y-direction. -/
def BoxesDisjoint (a b : V4) : Prop :=
  a 0 + a 2 ≤ b 0 ∨ b 0 + b 2 ≤ a 0 ∨ a 1 + a 3 ≤ b 1 ∨ b 1 + b 3 ≤ a 1

/-! ### Concrete inputs used by the analyses -/

/-- A 50×50 box at (100, 100). -/
def cbox : V4 := ![100, 100, 50, 50]

/-- A 50×50 box at (300, 300), disjoint from `cbox`. -/
def cboxFar : V4 := ![300, 300, 50, 50]

/-- A zero-width box. -/
def cboxDeg : V4 := ![10, 10, 0, 7]

/-- A high-confidence detection of `cbox`. -/
def cdet : Detection := ⟨cbox, 9 / 10, 0, none⟩

/-- A track on `cbox` activated at frame 1 with id 1. -/
def ctrackA : STrack := (STrack.new cbox (9 / 10) 0 none 1 0).activate 1 1

/-- A track on `cbox` activated at frame 1 with id 2, then marked lost. -/
def ctrackB : STrack := ((STrack.new cbox (9 / 10) 0 none 1 0).activate 1 2).markLost

/-- Tracker state holding one Tracked track (id 1) and one Lost track
(id 2), both on `cbox`. -/
def cstate2 : SMILEtrack :=
  { tracked_stracks := [ctrackA], lost_stracks := [ctrackB], removed_stracks := []
    track_id_count := 2, track_high_thresh := 1 / 2, track_buffer := 30
    max_time_lost := 30, with_reid := false }

/-- Tracker state holding only the Lost track (id 2). -/
def cstate4 : SMILEtrack :=
  { tracked_stracks := [], lost_stracks := [ctrackB], removed_stracks := []
    track_id_count := 2, track_high_thresh := 1 / 2, track_buffer := 30
    max_time_lost := 30, with_reid := false }

/-- Three frames with `track_buffer = 0`: a detection of `cbox` on frames 1
and 2, then a frame without detections. -/
def c1run : SMILEtrack :=
  (((SMILEtrack.init (1 / 2) 0 false).update [cdet] 1 0).update [cdet] 2 1).update [] 3 2

/-- Five frames with `track_buffer = 2`: a detection of `cbox` on frame 1,
then four consecutive frames without detections. -/
def c3run : SMILEtrack :=
  (((((SMILEtrack.init (1 / 2) 2 false).update [cdet] 1 0).update [] 2 1).update
      [] 3 2).update [] 4 3).update [] 5 4

/-- A Tracked track on `cbox` with a given id and `tracklet_len`. -/
def cdup (id : ℕ) (len : ℤ) : STrack :=
  { STrack.new cbox (9 / 10) 0 none 1 0 with
      track_id := id
      tracklet_len := len
      state := TrackState.Tracked }

/-- An 80×80 box at (0, 0). -/
def cboxL : V4 := ![0, 0, 80, 80]

/-- An 80×80 box at (12, 0): its mutual IoU with `cboxL` is
68·80 / (2·6400 − 68·80) = 17/23 ≈ 0.739 > 0.7. -/
def cboxR : V4 := ![12, 0, 80, 80]

/-- A Tracked track on `cboxL` (id 21, `tracklet_len` 5). -/
def cdupL : STrack :=
  { STrack.new cboxL (9 / 10) 0 none 1 0 with
      track_id := 21
      tracklet_len := 5
      state := TrackState.Tracked }

/-- A Tracked track on `cboxR` (id 22, `tracklet_len` 3). -/
def cdupR : STrack :=
  { STrack.new cboxR (9 / 10) 0 none 1 0 with
      track_id := 22
      tracklet_len := 3
      state := TrackState.Tracked }

/-- A track on `cbox` carrying the stored appearance feature `[1]`,
activated at frame 1 with id 1. -/
def ctrackF : STrack := (STrack.new cbox (9 / 10) 0 (some [1]) 1 0).activate 1 1

/-- A detection of `cbox` carrying the appearance feature `[5]`. -/
def cdetF : Detection := ⟨cbox, 9 / 10, 0, some [5]⟩

/-- Tracker state with re-identification enabled holding `ctrackF`. -/
def cstate9 : SMILEtrack :=
  { tracked_stracks := [ctrackF], lost_stracks := [], removed_stracks := []
    track_id_count := 1, track_high_thresh := 1 / 2, track_buffer := 30
    max_time_lost := 30, with_reid := true }

/-- A symmetric positive semi-definite covariance whose x and y positions
are strongly correlated (coefficient 0.9); all other variances 1. -/
def c6cov : M8 := fun i j =>
  if i = j then 1
  else if (i = 0 ∧ j = 1) ∨ (i = 1 ∧ j = 0) then 9 / 10
  else 0

/-- A state mean at position (100, 200) with a 1/5 × 1/5 box and zero
velocities. -/
def c6mean : V8 := ![100, 200, 1 / 5, 1 / 5, 0, 0, 0, 0]

/-- A measurement differing by +1 in x and +1000 in y. -/
def c6meas : V4 := ![101, 1200, 1 / 5, 1 / 5]

/-! ### Helper lemmas -/

theorem rmax_eq_max (a b : ℚ) : rmax a b = max a b := (max_def a b).symm

theorem rmin_eq_min (a b : ℚ) : rmin a b = min a b := by
  unfold rmin
  rcases le_total a b with h | h
  · rw [if_pos h, min_eq_left h]
  · rcases eq_or_lt_of_le h with rfl | hlt
    · simp
    · rw [if_neg (not_le.mpr hlt), min_eq_right h]

/-! ### C1: disjointness of the three track lists -/

/-- C1.  The claim states that after every `update()` call each track is a
member of at most one of the Tracked, Lost and Removed lists.  The code
violates this: `update()` clones tracks into their destination buffer but
never removes them from their source list.  Concretely, running the tracker
from empty with `track_buffer = 0` on a detection of `cbox` at frames 1 and
2 and an empty frame 3 leaves track id 1 both in the Tracked list and in
the Lost list (in state Lost in both). -/
theorem C1_track_in_tracked_and_lost_lists :
    c1run.tracked_stracks.map (fun t => (t.track_id, t.state)) = [(1, TrackState.Lost)]
    ∧ c1run.lost_stracks.map (fun t => (t.track_id, t.state)) = [(1, TrackState.Lost)] := by
  constructor
  · with_unfolding_all rfl
  · with_unfolding_all rfl

/-! ### C2: tier-2 matching input -/

/-- C2.  The claim states that tier-2 matching of Lost tracks considers
only the detections left unmatched by tier 1.  The code passes the full
high-confidence list to both tiers: starting from `cstate2` (one Tracked
and one Lost track on the same box) with the single detection `cdet`, the
high filter keeps `cdet`, tier 1 matches it to the Tracked track, tier 2
matches the *same* detection to the Lost track, and after `update()` the
Lost-list track has indeed been re-activated by it (state Tracked,
`tracklet_len` reset to 0, score refreshed to 0.9). -/
theorem C2_tier2_rematches_consumed_detection :
    [cdet].filter (fun d => decide (cstate2.track_high_thresh ≤ d.confidence)) = [cdet]
    ∧ (matchTracks (cstate2.tracked_stracks.map STrack.predict) [cdet]).pairs = [(0, 0)]
    ∧ (matchTracks (cstate2.lost_stracks.map STrack.predict) [cdet]).pairs = [(0, 0)]
    ∧ (cstate2.update [cdet] 2 1).lost_stracks.map
        (fun t => (t.track_id, t.state, t.tracklet_len, t.score, t.is_activated))
      = [(2, TrackState.Tracked, 0, 9 / 10, true)] := by
  refine ⟨?_, ?_, ?_, ?_⟩ <;> with_unfolding_all rfl

/-! ### C3: demotion of unmatched Tracked tracks -/

/-- C3.  The claim states that a Tracked track unmatched for more than
`track_buffer` consecutive frames is Lost afterwards.  The code instead
tests `tracklet_len > track_buffer`, where `tracklet_len` counts
*successful updates* since activation and never advances while the track is
unmatched: with `track_buffer = 2`, a track spawned at frame 1 and then
unmatched for four consecutive frames (> 2) is still in state Tracked, and
the Lost list is still empty. -/
theorem C3_unmatched_track_never_demoted :
    c3run.tracked_stracks.map (fun t => (t.track_id, t.state))
      = [(1, TrackState.Tracked)]
    ∧ c3run.lost_stracks = [] ∧ c3run.removed_stracks = [] := by
  refine ⟨?_, ?_, ?_⟩ <;> with_unfolding_all rfl

/-! ### C4: which detections spawn new tracks -/

/-- C4.  The claim states that exactly the high-confidence detections
unmatched after *both* tiers spawn a new track.  The code spawns from the
detections unmatched after tier 1 only: starting from `cstate4` (no Tracked
tracks, one Lost track on `cbox`, id counter 2), the single detection is
unmatched in tier 1, is matched in tier 2 (it re-activates the Lost track,
as the Lost list shows), and nevertheless spawns a new track, consuming the
next id (the counter rises to 3). -/
theorem C4_tier2_matched_detection_spawns_track :
    (matchTracks (cstate4.tracked_stracks.map STrack.predict) [cdet]).unmatchedDets = [0]
    ∧ (matchTracks (cstate4.lost_stracks.map STrack.predict) [cdet]).pairs = [(0, 0)]
    ∧ (cstate4.update [cdet] 2 1).track_id_count = 3
    ∧ (cstate4.update [cdet] 2 1).lost_stracks.map
        (fun t => (t.track_id, t.state)) = [(2, TrackState.Tracked)] := by
  refine ⟨?_, ?_, ?_, ?_⟩ <;> with_unfolding_all rfl

/-! ### C9: feature blending in per-frame updates -/

/-- C9.  The claim states that with `with_reid = true` a matched track
whose detection carries a feature has `0.9·old + 0.1·new` appended to its
stored features on every per-frame update.  `STrack::update` does implement
that blend when it receives a feature (last conjunct: 0.9·1 + 0.1·5 =
7/5) — but the tracker's per-frame path always passes `None`
(src/tracker.rs line 780), so after a full `update()` on `cstate9`
(re-identification enabled, detection feature `[5]`) the matched track's
stored features are unchanged `[[1]]` even though it was updated
(`tracklet_len` 1, score refreshed). -/
theorem C9_update_never_blends_features :
    cstate9.with_reid = true
    ∧ (cstate9.update [cdetF] 2 1).tracked_stracks.map
        (fun t => (t.features, t.tracklet_len, t.score))
      = [([[1]], 1, 9 / 10)]
    ∧ (ctrackF.update cdetF 2 (some [5]) 1).features = [[1], [7 / 5]] := by
  refine ⟨rfl, ?_, ?_⟩ <;> with_unfolding_all rfl

/-! ### C5: deduplication of overlapping Tracked tracks -/

/-- C5, counterexample.  The claim fails in two independent ways.  First,
in the chain `[cdup 11 5, cdup 12 3, cdup 13 1]` (identical boxes, every
pair at IoU 1 > 0.7) the pair (12, 13) has 12 as its larger member, yet 12
does not remain — 11 removes 12, 12 removes 13, and only 11 survives.
Second, the pass does not even test the boxes' mutual IoU: it feeds the
`tlwh_to_tlbr` output into `compute_iou`, which re-adds the coordinates,
so the boxes `cboxL`/`cboxR` with mutual IoU 17/23 ≈ 0.739 > 0.7 are
scored 17/26 ≈ 0.654 ≤ 0.7, and neither member of the pair (21, 22) is
removed — in particular the smaller member 22 remains. -/
theorem C5_counterexample_dedup :
    (7 / 10 < boxIou (cdup 12 3).tlwh (cdup 13 1).tlwh
      ∧ (cdup 13 1).tracklet_len < (cdup 12 3).tracklet_len
      ∧ (removeDuplicateTracks [cdup 11 5, cdup 12 3, cdup 13 1]).map
          (fun t => t.track_id) = [11])
    ∧ (7 / 10 < computeIou cboxL cboxR
      ∧ boxIou cboxL cboxR ≤ 7 / 10
      ∧ cdupL.tlwh = cboxL ∧ cdupR.tlwh = cboxR
      ∧ cdupR.tracklet_len < cdupL.tracklet_len
      ∧ (removeDuplicateTracks [cdupL, cdupR]).map (fun t => t.track_id) = [21, 22]) := by
  refine ⟨⟨?_, ?_, ?_⟩, ?_, ?_, ?_, ?_, ?_, ?_⟩
  · with_unfolding_all decide
  · decide
  · with_unfolding_all rfl
  · with_unfolding_all decide
  · with_unfolding_all decide
  · with_unfolding_all rfl
  · with_unfolding_all rfl
  · decide
  · with_unfolding_all rfl

/-- Reading back every index of a list yields the list. -/
theorem filterMap_get_range (l : List α) :
    (List.range l.length).filterMap (fun i => l.get? i) = l := by
  induction l with
  | nil => rfl
  | cons x xs ih =>
      rw [List.length_cons, List.range_succ_eq_map]
      have h0 : List.filterMap (fun i => (x :: xs).get? i)
            (0 :: (List.range xs.length).map Nat.succ)
          = x :: List.filterMap (fun i => (x :: xs).get? i)
              ((List.range xs.length).map Nat.succ) := rfl
      rw [h0, List.filterMap_map]
      have h1 : ((fun i => (x :: xs).get? i) ∘ Nat.succ) = fun i => xs.get? i := rfl
      rw [h1, ih]

/-- C5, amended.  The deduplication pass judges each pair of Tracked
tracks by the score `compute_iou` assigns to their corner-converted boxes
(`boxIou`), which is not the boxes' mutual IoU — the counterexample shows
a pair with mutual IoU above 0.7 scored below it.  Two guarantees hold:
for every pair `i < j` scored above 0.7, the member with the smaller
`tracklet_len` (the first of the pair on ties) is collected into
`dupIndices` and removed, so at most one member of the pair survives (the
larger member remains only if no other overlapping pair removes it); and
when no pair at all is scored above 0.7, the Tracked list is left
unchanged. -/
theorem C5_amended_dedup_behavior :
    (∀ (l : List STrack) (i j : ℕ), i < j → j < l.length →
      7 / 10 < boxIou ((l.getD i default).tlwh) ((l.getD j default).tlwh) →
      (if (l.getD j default).tracklet_len < (l.getD i default).tracklet_len then j else i)
        ∈ dupIndices l
      ∧ (if (l.getD j default).tracklet_len < (l.getD i default).tracklet_len then j else i)
        ∉ keptIndices l
      ∧ ¬ (i ∈ keptIndices l ∧ j ∈ keptIndices l))
    ∧ (∀ l : List STrack,
      (∀ i j : ℕ, i < j → j < l.length →
        boxIou ((l.getD i default).tlwh) ((l.getD j default).tlwh) ≤ 7 / 10) →
      removeDuplicateTracks l = l) := by
  constructor
  · intro l i j hij hj hiou
    have hi : i < l.length := lt_trans hij hj
    have hmem :
        (if (l.getD j default).tracklet_len < (l.getD i default).tracklet_len then j else i)
          ∈ dupIndices l := by
      unfold dupIndices
      rw [List.mem_flatMap]
      refine ⟨i, List.mem_range.mpr hi, ?_⟩
      rw [List.mem_filterMap]
      exact ⟨j, List.mem_range.mpr hj, by rw [if_pos hij, if_pos hiou]⟩
    have hnotkept :
        (if (l.getD j default).tracklet_len < (l.getD i default).tracklet_len then j else i)
          ∉ keptIndices l := by
      intro hkk
      unfold keptIndices at hkk
      rw [List.mem_filter] at hkk
      exact of_decide_eq_true hkk.2 hmem
    refine ⟨hmem, hnotkept, ?_⟩
    rintro ⟨hi', hj'⟩
    by_cases hlen : (l.getD j default).tracklet_len < (l.getD i default).tracklet_len
    · rw [if_pos hlen] at hnotkept; exact hnotkept hj'
    · rw [if_neg hlen] at hnotkept; exact hnotkept hi'
  · intro l h
    unfold removeDuplicateTracks
    have hkept : keptIndices l = List.range l.length := by
      unfold keptIndices
      apply List.filter_eq_self.mpr
      intro a _
      rw [decide_eq_true_eq]
      intro hmem
      unfold dupIndices at hmem
      rw [List.mem_flatMap] at hmem
      obtain ⟨i, _, hmem2⟩ := hmem
      rw [List.mem_filterMap] at hmem2
      obtain ⟨j, hj, hfj⟩ := hmem2
      by_cases hij : i < j
      · rw [if_pos hij,
          if_neg (not_lt.mpr (h i j hij (List.mem_range.mp hj)))] at hfj
        exact Option.noConfusion hfj
      · rw [if_neg hij] at hfj
        exact Option.noConfusion hfj
    rw [hkept]
    exact filterMap_get_range l

/-- C5, amended, witness.  In the chain `[cdup 11 5, cdup 12 3, cdup 13 1]`
the pair (1, 2) is scored above 0.7, so its smaller member (index 2) is
collected and dropped; and in `[cdupL, cdupR]` no pair is scored above
0.7, so the list is unchanged. -/
theorem C5_amended_dedup_behavior_witness :
    ((if ([cdup 11 5, cdup 12 3, cdup 13 1].getD 2 default).tracklet_len <
        ([cdup 11 5, cdup 12 3, cdup 13 1].getD 1 default).tracklet_len then 2 else 1)
      ∈ dupIndices [cdup 11 5, cdup 12 3, cdup 13 1]
    ∧ (if ([cdup 11 5, cdup 12 3, cdup 13 1].getD 2 default).tracklet_len <
        ([cdup 11 5, cdup 12 3, cdup 13 1].getD 1 default).tracklet_len then 2 else 1)
      ∉ keptIndices [cdup 11 5, cdup 12 3, cdup 13 1]
    ∧ ¬ (1 ∈ keptIndices [cdup 11 5, cdup 12 3, cdup 13 1]
         ∧ 2 ∈ keptIndices [cdup 11 5, cdup 12 3, cdup 13 1]))
    ∧ removeDuplicateTracks [cdupL, cdupR] = [cdupL, cdupR] :=
  ⟨C5_amended_dedup_behavior.1 [cdup 11 5, cdup 12 3, cdup 13 1] 1 2
      (by decide) (by decide) (by with_unfolding_all decide),
   C5_amended_dedup_behavior.2 [cdupL, cdupR]
      (fun i j hij hj => by
        have hj2 : j < 2 := by simpa using hj
        have h1 : j = 1 := by omega
        have h0 : i = 0 := by omega
        subst h1
        subst h0
        with_unfolding_all decide)⟩

/-! ### C7: predict and velocities -/

/-- Componentwise effect of one `predict` on the mean: each position
advances by its paired velocity, each velocity is unchanged. -/
theorem predict_mean_components (m : V8) (P : M8) :
    (KalmanFilter.predict m P).1 0 = m 0 + m 4
    ∧ (KalmanFilter.predict m P).1 1 = m 1 + m 5
    ∧ (KalmanFilter.predict m P).1 2 = m 2 + m 6
    ∧ (KalmanFilter.predict m P).1 3 = m 3 + m 7
    ∧ (KalmanFilter.predict m P).1 4 = m 4
    ∧ (KalmanFilter.predict m P).1 5 = m 5
    ∧ (KalmanFilter.predict m P).1 6 = m 6
    ∧ (KalmanFilter.predict m P).1 7 = m 7 := by
  refine ⟨?_, ?_, ?_, ?_, ?_, ?_, ?_, ?_⟩ <;>
    simp +decide [KalmanFilter.predict, mulVec8, sum8, KalmanFilter.motionMat]

/-- C7.  With all four velocity components (indices 4–7) zero, any number
of successive `predict()` calls leaves the four position components
(indices 0–3) of the mean unchanged; and each single `predict()` advances
every position component by exactly its paired velocity component while
leaving the velocity components unchanged (so a constant velocity stays
constant and moves the position by itself on every call). -/
theorem C7_predict_positions :
    (∀ (m : V8) (P : M8), m 4 = 0 → m 5 = 0 → m 6 = 0 → m 7 = 0 →
        ∀ n : ℕ,
          (predictN n (m, P)).1 0 = m 0 ∧ (predictN n (m, P)).1 1 = m 1
          ∧ (predictN n (m, P)).1 2 = m 2 ∧ (predictN n (m, P)).1 3 = m 3)
    ∧ (∀ (m : V8) (P : M8),
        (KalmanFilter.predict m P).1 0 = m 0 + m 4
        ∧ (KalmanFilter.predict m P).1 1 = m 1 + m 5
        ∧ (KalmanFilter.predict m P).1 2 = m 2 + m 6
        ∧ (KalmanFilter.predict m P).1 3 = m 3 + m 7
        ∧ (KalmanFilter.predict m P).1 4 = m 4
        ∧ (KalmanFilter.predict m P).1 5 = m 5
        ∧ (KalmanFilter.predict m P).1 6 = m 6
        ∧ (KalmanFilter.predict m P).1 7 = m 7) := by
  refine ⟨?_, fun m P => predict_mean_components m P⟩
  intro m P h4 h5 h6 h7 n
  induction n generalizing m P with
  | zero => exact ⟨rfl, rfl, rfl, rfl⟩
  | succ n ih =>
      have hc := predict_mean_components m P
      have ihs := ih (KalmanFilter.predict m P).1 (KalmanFilter.predict m P).2
        (hc.2.2.2.2.1.trans h4) (hc.2.2.2.2.2.1.trans h5)
        (hc.2.2.2.2.2.2.1.trans h6) (hc.2.2.2.2.2.2.2.trans h7)
      have hstep : predictN (n + 1) (m, P)
          = predictN n ((KalmanFilter.predict m P).1, (KalmanFilter.predict m P).2) := rfl
      refine ⟨?_, ?_, ?_, ?_⟩ <;> rw [hstep]
      · rw [ihs.1, hc.1, h4, add_zero]
      · rw [ihs.2.1, hc.2.1, h5, add_zero]
      · rw [ihs.2.2.1, hc.2.2.1, h6, add_zero]
      · rw [ihs.2.2.2, hc.2.2.2.1, h7, add_zero]

/-- C7, witness: three predicts on the state initiated from `cbox` (zero
velocities) keep the x position unchanged; and a single predict adds the x
velocity to the x position. -/
theorem C7_predict_positions_witness :
    (predictN 3 (KalmanFilter.initiate cbox)).1 0 = (KalmanFilter.initiate cbox).1 0
    ∧ (KalmanFilter.predict (KalmanFilter.initiate cbox).1
          (KalmanFilter.initiate cbox).2).1 0
      = (KalmanFilter.initiate cbox).1 0 + (KalmanFilter.initiate cbox).1 4 :=
  ⟨(C7_predict_positions.1 (KalmanFilter.initiate cbox).1 (KalmanFilter.initiate cbox).2
      rfl rfl rfl rfl 3).1,
   (C7_predict_positions.2 (KalmanFilter.initiate cbox).1
      (KalmanFilter.initiate cbox).2).1⟩

/-! ### C8: IoU properties -/

/-- The IoU is 0 whenever the intersection is empty in one direction. -/
theorem computeIouTlbr_eq_zero (ax1 ay1 ax2 ay2 bx1 by1 bx2 by2 : ℚ)
    (h : min ax2 bx2 ≤ max ax1 bx1 ∨ min ay2 by2 ≤ max ay1 by1) :
    computeIouTlbr ax1 ay1 ax2 ay2 bx1 by1 bx2 by2 = 0 := by
  simp only [computeIouTlbr, rmax_eq_max, rmin_eq_min]
  rcases h with h | h
  · rw [max_eq_right (sub_nonpos.mpr h), zero_mul, zero_div, ite_self]
  · rw [max_eq_right (sub_nonpos.mpr h), mul_zero, zero_div, ite_self]

/-- C8.  `compute_iou` of a positive-area box with itself is 1; of two
disjoint boxes it is 0; and of a degenerate box (non-positive width or
height) with any box, in either argument position, it is 0. -/
theorem C8_iou_properties :
    (∀ a : V4, 0 < a 2 → 0 < a 3 → computeIou a a = 1)
    ∧ (∀ a b : V4, BoxesDisjoint a b → computeIou a b = 0)
    ∧ (∀ a b : V4, a 2 ≤ 0 ∨ a 3 ≤ 0 → computeIou a b = 0 ∧ computeIou b a = 0) := by
  refine ⟨?_, ?_, ?_⟩
  · intro a h2 h3
    simp only [computeIou, computeIouTlbr, rmax_eq_max, rmin_eq_min, max_self, min_self,
      add_sub_cancel_left]
    rw [max_eq_left h2.le, max_eq_left h3.le]
    have harea : (0 : ℚ) < a 2 * a 3 := mul_pos h2 h3
    have hg : ¬ (a 2 * a 3 + a 2 * a 3 - a 2 * a 3 ≤ 0) := by nlinarith
    rw [if_neg hg, show a 2 * a 3 + a 2 * a 3 - a 2 * a 3 = a 2 * a 3 from by ring,
      div_self (ne_of_gt harea)]
  · intro a b h
    unfold computeIou
    apply computeIouTlbr_eq_zero
    rcases h with h | h | h | h
    · exact Or.inl ((min_le_left _ _).trans (h.trans (le_max_right _ _)))
    · exact Or.inl ((min_le_right _ _).trans (h.trans (le_max_left _ _)))
    · exact Or.inr ((min_le_left _ _).trans (h.trans (le_max_right _ _)))
    · exact Or.inr ((min_le_right _ _).trans (h.trans (le_max_left _ _)))
  · intro a b h
    constructor
    · unfold computeIou
      apply computeIouTlbr_eq_zero
      rcases h with h | h
      · exact Or.inl ((min_le_left _ _).trans
          ((by linarith : a 0 + a 2 ≤ a 0).trans (le_max_left _ _)))
      · exact Or.inr ((min_le_left _ _).trans
          ((by linarith : a 1 + a 3 ≤ a 1).trans (le_max_left _ _)))
    · unfold computeIou
      apply computeIouTlbr_eq_zero
      rcases h with h | h
      · exact Or.inl ((min_le_right _ _).trans
          ((by linarith : a 0 + a 2 ≤ a 0).trans (le_max_right _ _)))
      · exact Or.inr ((min_le_right _ _).trans
          ((by linarith : a 1 + a 3 ≤ a 1).trans (le_max_right _ _)))

/-- C8, witness: `cbox` against itself scores 1; `cbox` and a far box score
0; a zero-width box scores 0 against `cbox`. -/
theorem C8_iou_properties_witness :
    computeIou cbox cbox = 1
    ∧ computeIou cbox cboxFar = 0
    ∧ computeIou cboxDeg cbox = 0 :=
  ⟨C8_iou_properties.1 cbox (by with_unfolding_all decide) (by with_unfolding_all decide),
   C8_iou_properties.2.1 cbox cboxFar (Or.inl (by with_unfolding_all decide)),
   (C8_iou_properties.2.2 cboxDeg cbox (Or.inl (by with_unfolding_all decide))).1⟩

/-! ### C10: the `is_activated` flag -/

/-- Deduplicating a one-element Tracked list keeps the element. -/
theorem removeDuplicateTracks_singleton (t : STrack) :
    removeDuplicateTracks [t] = [t] := rfl

/-- C10.  `activate()` sets `is_activated` only when `frame_id = 1` (it
leaves the flag as it was on any other frame, while still assigning the id
and entering state Tracked); `update()` and `re_activate()` always set it;
`predict()`, `mark_lost()` and `mark_removed()` never change it; and a
track spawned by the tracker from a single unmatched high-confidence
detection on a frame `fid ≠ 1` appears in the Tracked list with its new id
1, state Tracked, and `is_activated = false`. -/
theorem C10_activation_flag :
    (∀ (t : STrack) (fid : ℤ) (tid : ℕ), fid ≠ 1 →
        (t.activate fid tid).is_activated = t.is_activated
        ∧ (t.activate fid tid).state = TrackState.Tracked
        ∧ (t.activate fid tid).track_id = tid)
    ∧ (∀ (t : STrack) (tid : ℕ), (t.activate 1 tid).is_activated = true)
    ∧ (∀ (t : STrack) (d : Detection) (fid : ℤ) (feat : Option (List ℚ)) (now : ℚ),
        (t.update d fid feat now).is_activated = true)
    ∧ (∀ (t : STrack) (d : Detection) (fid : ℤ) (b : Bool),
        (t.reActivate d fid b).is_activated = true)
    ∧ (∀ t : STrack,
        t.predict.is_activated = t.is_activated
        ∧ t.markLost.is_activated = t.is_activated
        ∧ t.markRemoved.is_activated = t.is_activated)
    ∧ (∀ (thresh : ℚ) (buf : ℕ) (reid : Bool) (d : Detection) (fid : ℤ) (now : ℚ),
        fid ≠ 1 → thresh ≤ d.confidence →
        ((SMILEtrack.init thresh buf reid).update [d] fid now).tracked_stracks.map
            (fun t => (t.track_id, t.state, t.is_activated))
          = [(1, TrackState.Tracked, false)]) := by
  refine ⟨?_, ?_, ?_, ?_, ?_, ?_⟩
  · intro t fid tid hfid
    exact ⟨by simp [STrack.activate, if_neg hfid], rfl, rfl⟩
  · intro t tid
    simp [STrack.activate]
  · intro t d fid feat now
    rfl
  · intro t d fid b
    rfl
  · intro t
    exact ⟨rfl, rfl, rfl⟩
  · intro thresh buf reid d fid now hfid hconf
    show (SMILEtrack.update _ _ _ _).tracked_stracks.map _ = _
    unfold SMILEtrack.update
    simp only [SMILEtrack.init, List.filter, decide_eq_true hconf, List.map_nil,
      List.length_nil, List.isEmpty_nil]
    rw [show matchTracks [] [d] = ⟨[], [], [0]⟩ from rfl]
    dsimp only
    simp only [List.foldl_nil, List.foldl_cons, List.filterMap_nil, List.map_nil,
      List.getD_cons_zero, if_pos hconf, List.nil_append, List.append_nil]
    rw [removeDuplicateTracks_singleton]
    simp [STrack.activate, STrack.new, if_neg hfid]

/-- C10, witness: activating at frame 2 with id 7 keeps the flag down; the
tracker's frame-2 spawn enters the Tracked list unactivated; a subsequent
`update()` raises the flag. -/
theorem C10_activation_flag_witness :
    ((STrack.new cbox (9 / 10) 0 none 2 0).activate 2 7).is_activated
      = (STrack.new cbox (9 / 10) 0 none 2 0).is_activated
    ∧ ((SMILEtrack.init (1 / 2) 30 false).update [cdet] 2 0).tracked_stracks.map
        (fun t => (t.track_id, t.state, t.is_activated))
      = [(1, TrackState.Tracked, false)]
    ∧ (((STrack.new cbox (9 / 10) 0 none 2 0).activate 2 7).update cdet 3 none 1).is_activated
      = true :=
  ⟨(C10_activation_flag.1 (STrack.new cbox (9 / 10) 0 none 2 0) 2 7 (by decide)).1,
   C10_activation_flag.2.2.2.2.2 (1 / 2) 30 false cdet 2 0 (by decide)
     (by with_unfolding_all decide),
   C10_activation_flag.2.2.1 ((STrack.new cbox (9 / 10) 0 none 2 0).activate 2 7)
     cdet 3 none 1⟩

/-! ### C6: betweenness of the Kalman update -/

set_option maxRecDepth 100000 in
/-- C6, counterexample.  The claim asserts strict betweenness of every
updated position coordinate for *every* symmetric PSD covariance.  With the
correlated covariance `c6cov` (x–y correlation 0.9), prior x = 100 and
measurement x = 101, the large y innovation (+1000) leaks through the
off-diagonal gain entry and pushes the updated x to ≈ 101.47 — beyond the
measurement, not between. -/
theorem C6_counterexample_update_overshoots :
    IsSymPSD c6cov
    ∧ c6mean 0 ≠ c6meas 0
    ∧ c6meas 0 < (KalmanFilter.update c6mean c6cov c6meas).1 0 := by
  refine ⟨⟨by with_unfolding_all decide, ?_⟩, by with_unfolding_all decide, ?_⟩
  · intro v
    have h : quadForm c6cov v
        = v 0 * v 0 + 9 / 10 * (v 0 * v 1) + 9 / 10 * (v 1 * v 0) + v 1 * v 1
          + v 2 * v 2 + v 3 * v 3 + v 4 * v 4 + v 5 * v 5 + v 6 * v 6 + v 7 * v 7 := by
      simp +decide [quadForm, sum8, c6cov]
      ring
    rw [h]
    nlinarith [sq_nonneg (v 0 + 9 / 10 * v 1), sq_nonneg (v 1), sq_nonneg (v 2),
      sq_nonneg (v 3), sq_nonneg (v 4), sq_nonneg (v 5), sq_nonneg (v 6), sq_nonneg (v 7)]
  · with_unfolding_all decide

set_option maxHeartbeats 4000000 in
/-- When the regularized innovation covariance of `update` is the diagonal
matrix with entries `s` and the position block of the covariance is
diagonal, each updated position coordinate is the prior plus
`P i i / s i` times the innovation in that coordinate. -/
theorem update_diag_gain (m : V8) (P : M8) (z : V4) (s : V4)
    (hdiag : ∀ i j : Fin 8, (i : ℕ) < 4 → (j : ℕ) < 4 → i ≠ j → P i j = 0)
    (hSeq : (fun a b : Fin 4 =>
        (KalmanFilter.project m P).2 a b + if a = b then 1 / 100000000 else 0)
      = fun a b => if a = b then s a else 0)
    (hs0 : s 0 ≠ 0) (hs1 : s 1 ≠ 0) (hs2 : s 2 ≠ 0) (hs3 : s 3 ≠ 0) :
    (KalmanFilter.update m P z).1 0 = m 0 + P 0 0 / s 0 * (z 0 - m 0)
    ∧ (KalmanFilter.update m P z).1 1 = m 1 + P 1 1 / s 1 * (z 1 - m 1)
    ∧ (KalmanFilter.update m P z).1 2 = m 2 + P 2 2 / s 2 * (z 2 - m 2)
    ∧ (KalmanFilter.update m P z).1 3 = m 3 + P 3 3 / s 3 * (z 3 - m 3) := by
  have h01 : P 0 1 = 0 := hdiag _ _ (by decide) (by decide) (by decide)
  have h02 : P 0 2 = 0 := hdiag _ _ (by decide) (by decide) (by decide)
  have h03 : P 0 3 = 0 := hdiag _ _ (by decide) (by decide) (by decide)
  have h10 : P 1 0 = 0 := hdiag _ _ (by decide) (by decide) (by decide)
  have h12 : P 1 2 = 0 := hdiag _ _ (by decide) (by decide) (by decide)
  have h13 : P 1 3 = 0 := hdiag _ _ (by decide) (by decide) (by decide)
  have h20 : P 2 0 = 0 := hdiag _ _ (by decide) (by decide) (by decide)
  have h21 : P 2 1 = 0 := hdiag _ _ (by decide) (by decide) (by decide)
  have h23 : P 2 3 = 0 := hdiag _ _ (by decide) (by decide) (by decide)
  have h30 : P 3 0 = 0 := hdiag _ _ (by decide) (by decide) (by decide)
  have h31 : P 3 1 = 0 := hdiag _ _ (by decide) (by decide) (by decide)
  have h32 : P 3 2 = 0 := hdiag _ _ (by decide) (by decide) (by decide)
  have hdet4 : det4 (fun a b : Fin 4 => if a = b then s a else 0)
      = s 0 * (s 1 * (s 2 * s 3)) := by
    simp +decide [det4, cof, minor3, det3, sum4, skip]
  have hdet : det4 (fun a b : Fin 4 => if a = b then s a else 0) ≠ 0 := by
    rw [hdet4]
    simp [hs0, hs1, hs2, hs3]
  refine ⟨?_, ?_, ?_, ?_⟩ <;>
    · simp only [KalmanFilter.update]
      rw [hSeq]
      simp only [solve4x48, if_neg hdet]
      simp +decide [mulVec84, sum4, mul4x48, inv4, adj4, cof, minor3, det3, sum8, skip,
        tr84, hdet4, KalmanFilter.updateMat, KalmanFilter.project, h01, h02, h03, h10,
        h12, h13, h20, h21, h23, h30, h31, h32]
      all_goals field_simp
      all_goals exact Or.inl (by ring)

set_option maxHeartbeats 4000000 in
/-- C6, amended.  For every state whose covariance has a *diagonal*
position block with strictly positive position variances, and every
measurement, `update()` produces a new mean each of whose position
coordinates lies strictly between its pre-update value and the
measurement's corresponding coordinate whenever the two differ.  (The
counterexample shows the restriction to a diagonal position block is
necessary: correlated positions can push a coordinate past the
measurement.) -/
theorem C6_amended_update_position_between (m : V8) (P : M8) (z : V4)
    (hdiag : ∀ i j : Fin 8, (i : ℕ) < 4 → (j : ℕ) < 4 → i ≠ j → P i j = 0)
    (hp0 : 0 < P 0 0) (hp1 : 0 < P 1 1) (hp2 : 0 < P 2 2) (hp3 : 0 < P 3 3) :
    (m 0 ≠ z 0 → min (m 0) (z 0) < (KalmanFilter.update m P z).1 0
        ∧ (KalmanFilter.update m P z).1 0 < max (m 0) (z 0))
    ∧ (m 1 ≠ z 1 → min (m 1) (z 1) < (KalmanFilter.update m P z).1 1
        ∧ (KalmanFilter.update m P z).1 1 < max (m 1) (z 1))
    ∧ (m 2 ≠ z 2 → min (m 2) (z 2) < (KalmanFilter.update m P z).1 2
        ∧ (KalmanFilter.update m P z).1 2 < max (m 2) (z 2))
    ∧ (m 3 ≠ z 3 → min (m 3) (z 3) < (KalmanFilter.update m P z).1 3
        ∧ (KalmanFilter.update m P z).1 3 < max (m 3) (z 3)) := by
  have hq2 : (0 : ℚ) ≤ (KalmanFilter.stdWeightPosition * m 2)
      * (KalmanFilter.stdWeightPosition * m 2) := mul_self_nonneg _
  have hq3 : (0 : ℚ) ≤ (KalmanFilter.stdWeightPosition * m 3)
      * (KalmanFilter.stdWeightPosition * m 3) := mul_self_nonneg _
  have hs0p : (0 : ℚ) < P 0 0 + (KalmanFilter.stdWeightPosition * m 2)
      * (KalmanFilter.stdWeightPosition * m 2) + 1 / 100000000 := by nlinarith
  have hs1p : (0 : ℚ) < P 1 1 + (KalmanFilter.stdWeightPosition * m 3)
      * (KalmanFilter.stdWeightPosition * m 3) + 1 / 100000000 := by nlinarith
  have hs2p : (0 : ℚ) < P 2 2 + (KalmanFilter.stdWeightPosition * m 2)
      * (KalmanFilter.stdWeightPosition * m 2) + 1 / 100000000 := by nlinarith
  have hs3p : (0 : ℚ) < P 3 3 + (KalmanFilter.stdWeightPosition * m 3)
      * (KalmanFilter.stdWeightPosition * m 3) + 1 / 100000000 := by nlinarith
  have hSeq : (fun a b : Fin 4 =>
        (KalmanFilter.project m P).2 a b + if a = b then 1 / 100000000 else 0)
      = fun a b => if a = b then
          (![P 0 0 + (KalmanFilter.stdWeightPosition * m 2)
                * (KalmanFilter.stdWeightPosition * m 2) + 1 / 100000000,
             P 1 1 + (KalmanFilter.stdWeightPosition * m 3)
                * (KalmanFilter.stdWeightPosition * m 3) + 1 / 100000000,
             P 2 2 + (KalmanFilter.stdWeightPosition * m 2)
                * (KalmanFilter.stdWeightPosition * m 2) + 1 / 100000000,
             P 3 3 + (KalmanFilter.stdWeightPosition * m 3)
                * (KalmanFilter.stdWeightPosition * m 3) + 1 / 100000000]) a else 0 := by
    funext a b
    fin_cases a <;> fin_cases b
    all_goals simp +decide [KalmanFilter.project, KalmanFilter.measurementNoise, sum8,
        KalmanFilter.updateMat]
    all_goals try ring
    all_goals exact hdiag _ _ (by decide) (by decide) (by decide)
  have hgain := update_diag_gain m P z _ hdiag hSeq
    (by simpa using hs0p.ne') (by simpa using hs1p.ne')
    (by simpa using hs2p.ne') (by simpa using hs3p.ne')
  have key : ∀ x p srest d : ℚ, 0 < p → 0 ≤ srest → ∀ y : ℚ, x ≠ y →
      min x y < x + p / (p + srest + 1 / 100000000) * (y - x)
      ∧ x + p / (p + srest + 1 / 100000000) * (y - x) < max x y := by
    intro x p srest d hp hsr y hxy
    have hden : (0 : ℚ) < p + srest + 1 / 100000000 := by nlinarith
    have ht0 : 0 < p / (p + srest + 1 / 100000000) := div_pos hp hden
    have ht1 : p / (p + srest + 1 / 100000000) < 1 :=
      (div_lt_one hden).mpr (by nlinarith)
    rcases lt_or_gt_of_ne hxy with hlt | hgt
    · rw [min_eq_left hlt.le, max_eq_right hlt.le]
      constructor
      · nlinarith [mul_pos ht0 (sub_pos.mpr hlt)]
      · nlinarith [mul_pos (sub_pos.mpr ht1) (sub_pos.mpr hlt)]
    · rw [min_eq_right hgt.le, max_eq_left hgt.le]
      constructor
      · nlinarith [mul_pos (sub_pos.mpr ht1) (sub_pos.mpr hgt)]
      · nlinarith [mul_pos ht0 (sub_pos.mpr hgt)]
  refine ⟨?_, ?_, ?_, ?_⟩
  · intro hne
    rw [hgain.1]
    exact key (m 0) (P 0 0) _ 0 hp0 hq2 (z 0) hne
  · intro hne
    rw [hgain.2.1]
    exact key (m 1) (P 1 1) _ 0 hp1 hq3 (z 1) hne
  · intro hne
    rw [hgain.2.2.1]
    exact key (m 2) (P 2 2) _ 0 hp2 hq2 (z 2) hne
  · intro hne
    rw [hgain.2.2.2]
    exact key (m 3) (P 3 3) _ 0 hp3 hq3 (z 3) hne

/-- C6, amended, witness: with the identity covariance (diagonal, positive
variances), prior x = 100 and measurement x = 101, the updated x lies
strictly between 100 and 101. -/
theorem C6_amended_update_position_between_witness :
    min (c6mean 0) (c6meas 0) < (KalmanFilter.update c6mean id8 c6meas).1 0
    ∧ (KalmanFilter.update c6mean id8 c6meas).1 0 < max (c6mean 0) (c6meas 0) :=
  (C6_amended_update_position_between c6mean id8 c6meas
      (fun _ _ _ _ hij => if_neg hij)
      (by norm_num [id8]) (by norm_num [id8]) (by norm_num [id8]) (by norm_num [id8])).1
    (by with_unfolding_all decide)

end SmileTrack
